import Mathlib

/-!
Verification of the CipherVault password-manager extension security core.

The definitions below are a shallow embedding of the repository sources:
`src/lib/security.ts` (PIN lock, backoff, auto-lock, domain matcher),
`src/lib/crypto.ts` (base64 utilities, session key, AES-GCM wrappers),
`src/values/constants.ts` (numeric defaults), and the popup unlock handler
`handlePinUnlock` from `App.tsx`.  The chrome storage areas are modelled as
explicit record states; the ambient clock is an explicit `now : Nat`
parameter (milliseconds); SHA-256 PIN hashing is an abstract parameter
`hashPin : String → String`.
-/

namespace CipherVault

/-! ## Constants (`src/values/constants.ts`, `SECURITY_VALUES`) -/

def MAX_FAILED_ATTEMPTS : Nat := 5

def MAX_BACKOFF_SECONDS : Nat := 300

def DEFAULT_LOCK_TIMEOUT_MINS : Nat := 5

def CLIPBOARD_CLEAR_SECONDS : Nat := 30

/-! ## Storage model

`chrome.storage.local` holds the durable entries (PIN hash, failed-attempt
count, last-failure time, lock timeout); `chrome.storage.session` holds the
volatile entries (encoded session key, last-activity time).  A missing key is
`none`; JavaScript reads of the form `(x as number) || 0` are modelled by
`Option.getD _ 0`. -/

structure LocalStore where
  pinHash : Option String
  failedAttempts : Option Nat
  lastFailedTime : Option Nat
  lockTimeout : Option Nat
deriving DecidableEq, Repr

structure SessionStore where
  sessionKey : Option String
  lastActivity : Option Nat
deriving DecidableEq, Repr

structure SecurityState where
  localStore : LocalStore
  sessionStore : SessionStore
deriving DecidableEq, Repr

/-- Read of `FAILED_ATTEMPTS_KEY` followed by `|| 0`. -/
def readAttempts (s : SecurityState) : Nat :=
  s.localStore.failedAttempts.getD 0

/-- Read of `LAST_FAILED_TIME_KEY` followed by `|| 0`. -/
def readLastFailed (s : SecurityState) : Nat :=
  s.localStore.lastFailedTime.getD 0

/-! ## Exponential backoff (`security.ts`, `getBackoffDelay` / `isBackoffActive`) -/

/-- `getBackoffDelay`: `0` when no failed attempts are recorded, otherwise
`min(2^attempts, MAX_BACKOFF_SECONDS)` seconds, returned in milliseconds. -/
def getBackoffDelay (s : SecurityState) : Nat :=
  let currentAttempts := readAttempts s
  if currentAttempts = 0 then 0
  else Nat.min (2 ^ currentAttempts) MAX_BACKOFF_SECONDS * 1000

structure BackoffStatus where
  active : Bool
  remainingMs : Nat
deriving DecidableEq, Repr

/-- `isBackoffActive`: reports whether the backoff window is still open and
how many milliseconds remain. -/
def isBackoffActive (now : Nat) (s : SecurityState) : BackoffStatus :=
  let currentAttempts := readAttempts s
  let lastFailedTime := readLastFailed s
  if currentAttempts = 0 then ⟨false, 0⟩
  else
    let delayMs := Nat.min (2 ^ currentAttempts) MAX_BACKOFF_SECONDS * 1000
    let unlockTime := lastFailedTime + delayMs
    if now < unlockTime then ⟨true, unlockTime - now⟩
    else ⟨false, 0⟩

/-! ## PIN lock (`security.ts`) -/

/-- `setPin`: stores the hashed PIN under `PIN_KEY`. -/
def setPin (hashPin : String → String) (pin : String) (s : SecurityState) : SecurityState :=
  { s with localStore := { s.localStore with pinHash := some (hashPin pin) } }

/-- `clearSecurityData`: `chrome.storage.local.remove([PIN_KEY, FAILED_ATTEMPTS_KEY])`
followed by `chrome.storage.session.clear()`.  Note that `LAST_FAILED_TIME_KEY`
is not in the removed list, so the last-failure timestamp survives. -/
def clearSecurityData (s : SecurityState) : SecurityState :=
  { localStore := { s.localStore with pinHash := none, failedAttempts := none },
    sessionStore := { sessionKey := none, lastActivity := none } }

/-- `updateLastActivity`: writes `Date.now()` to the session store. -/
def updateLastActivity (now : Nat) (s : SecurityState) : SecurityState :=
  { s with sessionStore := { s.sessionStore with lastActivity := some now } }

/-- `verifyPin`: compares the stored hash with `hashPin pin`.  On success it
writes `0` to the failed-attempt entry and refreshes the activity timestamp.
On failure it increments the counter, records the failure time, and triggers
`clearSecurityData` once the counter reaches `MAX_FAILED_ATTEMPTS`. -/
def verifyPin (hashPin : String → String) (pin : String) (now : Nat)
    (s : SecurityState) : Bool × SecurityState :=
  let hash := hashPin pin
  if s.localStore.pinHash = some hash then
    (true, updateLastActivity now
      { s with localStore := { s.localStore with failedAttempts := some 0 } })
  else
    let newAttempts := readAttempts s + 1
    let s1 : SecurityState :=
      { s with localStore :=
        { s.localStore with failedAttempts := some newAttempts, lastFailedTime := some now } }
    if MAX_FAILED_ATTEMPTS ≤ newAttempts then (false, clearSecurityData s1)
    else (false, s1)

/-- `hasPin`: JavaScript truthiness `!!stored[PIN_KEY]` (absent or empty
string is false). -/
def hasPin (s : SecurityState) : Bool :=
  match s.localStore.pinHash with
  | none => false
  | some h => h != ""

/-- `removePin`: removes only the PIN hash entry. -/
def removePin (s : SecurityState) : SecurityState :=
  { s with localStore := { s.localStore with pinHash := none } }

/-! ## Auto-lock timer (`security.ts`) -/

/-- `setLockTimeout`. -/
def setLockTimeout (minutes : Nat) (s : SecurityState) : SecurityState :=
  { s with localStore := { s.localStore with lockTimeout := some minutes } }

/-- `getLockTimeout`: stored minutes, with `|| DEFAULT_LOCK_TIMEOUT_MINS`
applying the default when the entry is absent or zero. -/
def getLockTimeout (s : SecurityState) : Nat :=
  match s.localStore.lockTimeout with
  | none => DEFAULT_LOCK_TIMEOUT_MINS
  | some t => if t = 0 then DEFAULT_LOCK_TIMEOUT_MINS else t

/-- `isSessionExpired`: `Date.now() > lastActivity + timeout * 60 * 1000`
(a strict comparison). -/
def isSessionExpired (now : Nat) (s : SecurityState) : Bool :=
  let lastActivity := s.sessionStore.lastActivity.getD 0
  let expiresAt := lastActivity + getLockTimeout s * 60 * 1000
  decide (expiresAt < now)

/-! ## Session key cache (`crypto.ts`) -/

/-- `storeKeyInSession`: stores the exported key material. -/
def storeKeyInSession (keyJson : String) (s : SecurityState) : SecurityState :=
  { s with sessionStore := { s.sessionStore with sessionKey := some keyJson } }

/-- `clearKeyFromSession`. -/
def clearKeyFromSession (s : SecurityState) : SecurityState :=
  { s with sessionStore := { s.sessionStore with sessionKey := none } }

/-- `secureLogout`: clears the key, then clears the whole session store. -/
def secureLogout (s : SecurityState) : SecurityState :=
  { s with sessionStore := { sessionKey := none, lastActivity := none } }

/-! ## Popup unlock flow (`App.tsx`, `handlePinUnlock`) -/

inductive UnlockOutcome where
  | backoffRejected (remainingMs : Nat)
  | unlocked
  | loginRequired
  | invalidPin (backoffMs : Nat)
deriving DecidableEq, Repr

/-- `handlePinUnlock`: consults `isBackoffActive` first and rejects the
attempt (leaving all state untouched, and in particular never computing a
PIN hash) while the window is open; otherwise runs `verifyPin` and inspects
the session key. -/
def handlePinUnlock (hashPin : String → String) (pin : String) (now : Nat)
    (s : SecurityState) : UnlockOutcome × SecurityState :=
  let backoff := isBackoffActive now s
  if backoff.active then (.backoffRejected backoff.remainingMs, s)
  else
    let r := verifyPin hashPin pin now s
    if r.1 then
      if r.2.sessionStore.sessionKey.isSome then (.unlocked, r.2)
      else (.loginRequired, r.2)
    else
      (.invalidPin (getBackoffDelay r.2), r.2)

/-! ## Phishing detection (`security.ts`) -/

/-- Modelled from the spec: the WHATWG `new URL(url).hostname` getter used by
`extractDomain` is a browser builtin, modelled here for ordinary
`scheme://host[/path...]` URLs: the hostname is what follows the first
`://` (with a nonempty scheme before it) up to the first `/`, `:`, `?` or
`#`; a URL with no `://` or an empty host is malformed and yields `""`,
exactly as the `catch` branch of `extractDomain` does. -/
def afterSchemeSep : List Char → Bool → Option (List Char)
  | ':' :: '/' :: '/' :: rest, schemeSeen => if schemeSeen then some rest else none
  | _ :: rest, _ => afterSchemeSep rest true
  | [], _ => none

/-- ASCII lowercasing of one character, as `Char.toLower` does it. -/
def toLowerChar (c : Char) : Char :=
  let n := c.toNat
  if 65 ≤ n ∧ n ≤ 90 then Char.ofNat (n + 32) else c

/-- `extractDomain`: lowercased hostname of the URL, or `""` when parsing
fails (the `catch` branch). -/
def extractDomain (url : String) : String :=
  match afterSchemeSep url.data false with
  | none => ""
  | some rest =>
    let host := rest.takeWhile fun ch => ch != '/' && ch != ':' && ch != '?' && ch != '#'
    if host.isEmpty then "" else String.mk (host.map toLowerChar)

/-- Inner cell computation of the `levenshteinDistance` dynamic program:
walks one row, carrying the diagonal, upper and left neighbours exactly as
`matrix[i-1][j-1]`, `matrix[i-1][j]` and `matrix[i][j-1]` in the source. -/
def levRow (bc : Char) : List Char → List Nat → Nat → List Nat
  | [], _, _ => []
  | _ :: _, [], _ => []
  | _ :: _, [_], _ => []
  | ac :: arest, diag :: up :: rest, left =>
    let cur := if bc = ac then diag
      else Nat.min (Nat.min (diag + 1) (left + 1)) (up + 1)
    cur :: levRow bc arest (up :: rest) cur

/-- Outer loop of the dynamic program: row `i` starts with `matrix[i][0] = i`. -/
def levLoop (a : List Char) : List Char → List Nat → Nat → List Nat
  | [], row, _ => row
  | bc :: brest, row, i => levLoop a brest ((i + 1) :: levRow bc a row (i + 1)) (i + 1)

/-- `levenshteinDistance`: the dynamic-programming edit distance from
`security.ts`; row `0` is `0, 1, ..., a.length` and the answer is
`matrix[b.length][a.length]`, the last cell of the last row. -/
def levenshteinDistance (a b : String) : Nat :=
  (levLoop a.data b.data (List.range (a.data.length + 1)) 0).getLastD 0

/-- The typosquatting warning text produced by `checkDomainMatch`. -/
def phishingWarning (currentDomain storedDomain : String) : String :=
  "⚠️ Possible phishing! Domain \"" ++ currentDomain ++
    "\" looks similar to stored \"" ++ storedDomain ++ "\""

structure DomainMatchResult where
  isMatch : Bool
  warning : Option String
deriving DecidableEq, Repr

/-- `checkDomainMatch`: invalid URL, exact hostname match, typosquatting
warning for edit distance in `(0, 2]`, plain mismatch otherwise. -/
def checkDomainMatch (currentUrl storedUrl : String) : DomainMatchResult :=
  let currentDomain := extractDomain currentUrl
  let storedDomain := extractDomain storedUrl
  if currentDomain = "" || storedDomain = "" then ⟨false, some "Invalid URL"⟩
  else if currentDomain = storedDomain then ⟨true, none⟩
  else
    let distance := levenshteinDistance currentDomain storedDomain
    if distance ≤ 2 && distance > 0 then
      ⟨false, some (phishingWarning currentDomain storedDomain)⟩
    else ⟨false, some "Domain mismatch"⟩

/-! ## Base64 encoding (`crypto.ts`, `arrayBufferToBase64` / `base64ToArrayBuffer`)

Modelled from the spec: `btoa` and `atob` are browser builtins; they are
modelled as standard RFC 4648 base64 over byte alphabets.  The source walks
the `Uint8Array` through `String.fromCharCode` / `charCodeAt`, so both
functions are plain byte-list transforms here. -/

def base64Alphabet : List Char :=
  "ABCDEFGHIJKLMNOPQRSTUVWXYZabcdefghijklmnopqrstuvwxyz0123456789+/".data

def sixbitToChar (n : Nat) : Char := base64Alphabet.getD n 'A'

def charToSixbit (c : Char) : Nat := base64Alphabet.findIdx (· == c)

/-- RFC 4648 base64 encoding of a byte list (the model of `btoa` applied to
a binary string). -/
def b64Encode : List Nat → List Char
  | [] => []
  | [b0] =>
    [sixbitToChar (b0 / 4), sixbitToChar (b0 % 4 * 16), '=', '=']
  | [b0, b1] =>
    [sixbitToChar (b0 / 4), sixbitToChar (b0 % 4 * 16 + b1 / 16),
      sixbitToChar (b1 % 16 * 4), '=']
  | b0 :: b1 :: b2 :: rest =>
    sixbitToChar (b0 / 4) :: sixbitToChar (b0 % 4 * 16 + b1 / 16) ::
      sixbitToChar (b1 % 16 * 4 + b2 / 64) :: sixbitToChar (b2 % 64) ::
      b64Encode rest

/-- RFC 4648 base64 decoding to a byte list (the model of `atob`).  `'='`
padding may only close the final quantum. -/
def b64Decode : List Char → List Nat
  | c0 :: c1 :: c2 :: c3 :: rest =>
    if c2 = '=' then [charToSixbit c0 * 4 + charToSixbit c1 / 16]
    else if c3 = '=' then
      [charToSixbit c0 * 4 + charToSixbit c1 / 16,
        charToSixbit c1 % 16 * 16 + charToSixbit c2 / 4]
    else
      (charToSixbit c0 * 4 + charToSixbit c1 / 16) ::
        (charToSixbit c1 % 16 * 16 + charToSixbit c2 / 4) ::
        (charToSixbit c2 % 4 * 64 + charToSixbit c3) ::
        b64Decode rest
  | _ => []

/-- `arrayBufferToBase64`. -/
def arrayBufferToBase64 (buffer : List Nat) : String :=
  String.mk (b64Encode buffer)

/-- `base64ToArrayBuffer`. -/
def base64ToArrayBuffer (base64 : String) : List Nat :=
  b64Decode base64.data

/-! ## UTF-8 text encoding

Modelled from the spec: `TextEncoder` / `TextDecoder` are browser builtins;
they are modelled as standard UTF-8 over the code points of the string. -/

def utf8EncodeChar (c : Char) : List Nat :=
  let n := c.toNat
  if n < 0x80 then [n]
  else if n < 0x800 then [0xC0 + n / 64, 0x80 + n % 64]
  else if n < 0x10000 then
    [0xE0 + n / 4096, 0x80 + n / 64 % 64, 0x80 + n % 64]
  else
    [0xF0 + n / 262144, 0x80 + n / 4096 % 64, 0x80 + n / 64 % 64, 0x80 + n % 64]

def utf8EncodeList : List Char → List Nat
  | [] => []
  | c :: cs => utf8EncodeChar c ++ utf8EncodeList cs

/-- The model of `TextEncoder().encode`. -/
def utf8Encode (s : String) : List Nat := utf8EncodeList s.data

/-- Continuation of a two-byte UTF-8 sequence. -/
def utf8Tail1 (b : Nat) : List Nat → Option (Char × List Nat)
  | b1 :: rest => some (Char.ofNat ((b - 0xC0) * 64 + (b1 - 0x80)), rest)
  | [] => none

/-- Continuation of a three-byte UTF-8 sequence. -/
def utf8Tail2 (b : Nat) : List Nat → Option (Char × List Nat)
  | b1 :: b2 :: rest =>
    some (Char.ofNat ((b - 0xE0) * 4096 + (b1 - 0x80) * 64 + (b2 - 0x80)), rest)
  | _ => none

/-- Continuation of a four-byte UTF-8 sequence. -/
def utf8Tail3 (b : Nat) : List Nat → Option (Char × List Nat)
  | b1 :: b2 :: b3 :: rest =>
    some (Char.ofNat ((b - 0xF0) * 262144 + (b1 - 0x80) * 4096 +
      (b2 - 0x80) * 64 + (b3 - 0x80)), rest)
  | _ => none

/-- Decodes one UTF-8 sequence off the front of a byte list. -/
def utf8DecodeStep : List Nat → Option (Char × List Nat)
  | [] => none
  | b :: rest =>
    if b < 0x80 then some (Char.ofNat b, rest)
    else if b < 0xE0 then utf8Tail1 b rest
    else if b < 0xF0 then utf8Tail2 b rest
    else utf8Tail3 b rest

/-- Repeated `utf8DecodeStep`; the fuel bounds the number of decoded
characters, so a fuel equal to the byte count always suffices. -/
def utf8DecodeLoop : Nat → List Nat → Option (List Char)
  | _, [] => some []
  | 0, _ :: _ => none
  | fuel + 1, b :: bs =>
    match utf8DecodeStep (b :: bs) with
    | none => none
    | some (c, rest) => (utf8DecodeLoop fuel rest).map fun cs => c :: cs

/-- UTF-8 decoding of a byte list, failing on truncated sequences. -/
def utf8DecodeList (bs : List Nat) : Option (List Char) :=
  utf8DecodeLoop bs.length bs

/-- The model of `TextDecoder().decode`, fallible. -/
def utf8Decode (bs : List Nat) : Option String :=
  (utf8DecodeList bs).map String.mk

/-! ## Authenticated secret cipher (`crypto.ts`, `encryptData` / `decryptData`)

Modelled from the spec: `crypto.subtle.encrypt` / `crypto.subtle.decrypt`
with AES-256-GCM are Web Crypto primitives.  They are modelled as an ideal
authenticated cipher: a ciphertext determines (and is determined by) the
key, the nonce and the plaintext bytes, and decryption succeeds exactly on
genuine ciphertexts for the presented key and nonce, failing with a typed
error otherwise.  The random 96-bit IV drawn inside `encryptData` is an
explicit `iv` argument here. -/

inductive DecryptionError where
  | authFailure
deriving DecidableEq, Repr

/-- Ideal-cipher model of `crypto.subtle.encrypt` with AES-GCM. -/
def subtleEncrypt (key iv : List Nat) (plaintext : String) : List Nat :=
  key ++ iv ++ utf8Encode plaintext

/-- Ideal-cipher model of `crypto.subtle.decrypt` with AES-GCM: recovers the
candidate plaintext and authenticates by re-encryption, so only exact
outputs of `subtleEncrypt` with the same key and nonce decrypt. -/
def subtleDecrypt (key : List Nat) (ciphertext : List Nat) (iv : List Nat) :
    Except DecryptionError String :=
  match utf8Decode (ciphertext.drop (key.length + iv.length)) with
  | none => .error .authFailure
  | some p =>
    if ciphertext = subtleEncrypt key iv p then .ok p
    else .error .authFailure

structure EncryptedPayload where
  encrypted : String
  iv : String
deriving DecidableEq, Repr

/-- `encryptData`: AES-GCM encryption followed by base64 encoding of both
the ciphertext and the IV. -/
def encryptData (key : List Nat) (iv : List Nat) (plaintext : String) :
    EncryptedPayload :=
  { encrypted := arrayBufferToBase64 (subtleEncrypt key iv plaintext),
    iv := arrayBufferToBase64 iv }

/-- `decryptData`: base64 decoding of ciphertext and IV followed by AES-GCM
decryption; a `DecryptionError` models the thrown `OperationError`. -/
def decryptData (key : List Nat) (encryptedBase64 : String) (ivBase64 : String) :
    Except DecryptionError String :=
  subtleDecrypt key (base64ToArrayBuffer encryptedBase64) (base64ToArrayBuffer ivBase64)

/-! ## Operations touching the stores, for the counter-reset invariant -/

inductive SecOp where
  | setPinOp (pin : String)
  | verifyPinOp (pin : String)
  | removePinOp
  | setLockTimeoutOp (minutes : Nat)
  | updateLastActivityOp
  | clearSecurityDataOp
  | storeKeyOp (keyJson : String)
  | clearKeyOp
  | secureLogoutOp
deriving DecidableEq, Repr

/-- Small-step interpretation of every store-mutating operation exported by
`security.ts` and `crypto.ts`. -/
def runOp (hashPin : String → String) (now : Nat) : SecOp → SecurityState → SecurityState
  | .setPinOp pin, s => setPin hashPin pin s
  | .verifyPinOp pin, s => (verifyPin hashPin pin now s).2
  | .removePinOp, s => removePin s
  | .setLockTimeoutOp m, s => setLockTimeout m s
  | .updateLastActivityOp, s => updateLastActivity now s
  | .clearSecurityDataOp, s => clearSecurityData s
  | .storeKeyOp k, s => storeKeyInSession k s
  | .clearKeyOp, s => clearKeyFromSession s
  | .secureLogoutOp, s => secureLogout s

/-! ## Concrete states and inputs used by witnesses and counterexamples -/

/-- A session with `lastActivity = 1000` and a five-minute lock timeout
(fields: pinHash, failedAttempts, lastFailedTime, lockTimeout;
sessionKey, lastActivity). -/
def stExpiry : SecurityState :=
  ⟨⟨none, none, none, some 5⟩, ⟨none, some 1000⟩⟩

/-- A state with three recorded failures, the last one at `t = 10000`. -/
def stBackoff : SecurityState :=
  ⟨⟨some "aa", some 3, some 10000, none⟩, ⟨some "K", some 1⟩⟩

/-- A state one failure short of the destructive-wipe threshold. -/
def stFour : SecurityState :=
  ⟨⟨some "1234", some 4, some 5, none⟩, ⟨some "K", some 9⟩⟩

/-- A state with no PIN configured and four recorded failures. -/
def stNoPin : SecurityState :=
  ⟨⟨none, some 4, some 5, none⟩, ⟨some "K", some 9⟩⟩

/-- A 32-byte AES-256 key of sevens. -/
def key0 : List Nat := List.replicate 32 7

/-- A second, distinct 32-byte key. -/
def key1 : List Nat := List.replicate 32 8

/-- A 12-byte AES-GCM IV of threes. -/
def iv0 : List Nat := List.replicate 12 3

/-- A second, distinct 12-byte IV. -/
def iv1 : List Nat := List.replicate 12 4

/-- Sample bytes for the base64 round-trip witness. -/
def bytes0 : List Nat := [0, 1, 77, 128, 255, 254, 100]

/-! ## Helper lemmas: base64 round trip -/

theorem charToSixbit_sixbitToChar (n : Nat) (h : n < 64) :
    charToSixbit (sixbitToChar n) = n := by
  have hall : ∀ m : Fin 64, charToSixbit (sixbitToChar m.val) = m.val := by decide
  exact hall ⟨n, h⟩

theorem sixbitToChar_ne_pad (n : Nat) (h : n < 64) : ¬ sixbitToChar n = '=' := by
  have hall : ∀ m : Fin 64, ¬ sixbitToChar m.val = '=' := by decide
  exact hall ⟨n, h⟩

theorem b64_roundtrip : ∀ bs : List Nat, (∀ b ∈ bs, b < 256) →
    b64Decode (b64Encode bs) = bs := by
  intro bs
  induction bs using b64Encode.induct with
  | case1 =>
    intro _
    rfl
  | case2 b0 =>
    intro h
    have hb0 : b0 < 256 := h b0 (by simp)
    rw [b64Encode.eq_2, b64Decode.eq_1, if_pos rfl]
    rw [charToSixbit_sixbitToChar _ (by omega), charToSixbit_sixbitToChar _ (by omega)]
    simp only [List.cons.injEq, and_true]
    omega
  | case3 b0 b1 =>
    intro h
    have hb0 : b0 < 256 := h b0 (by simp)
    have hb1 : b1 < 256 := h b1 (by simp)
    rw [b64Encode.eq_3, b64Decode.eq_1]
    rw [if_neg (sixbitToChar_ne_pad _ (by omega)), if_pos rfl]
    rw [charToSixbit_sixbitToChar _ (by omega), charToSixbit_sixbitToChar _ (by omega),
      charToSixbit_sixbitToChar _ (by omega)]
    simp only [List.cons.injEq, and_true]
    exact ⟨by omega, by omega⟩
  | case4 b0 b1 b2 rest ih =>
    intro h
    have hb0 : b0 < 256 := h b0 (by simp)
    have hb1 : b1 < 256 := h b1 (by simp)
    have hb2 : b2 < 256 := h b2 (by simp)
    have hrest : ∀ b ∈ rest, b < 256 := fun b hb => h b (by simp [hb])
    rw [b64Encode.eq_4, b64Decode.eq_1]
    rw [if_neg (sixbitToChar_ne_pad _ (by omega)), if_neg (sixbitToChar_ne_pad _ (by omega))]
    rw [charToSixbit_sixbitToChar _ (by omega), charToSixbit_sixbitToChar _ (by omega),
      charToSixbit_sixbitToChar _ (by omega), charToSixbit_sixbitToChar _ (by omega)]
    rw [ih hrest]
    simp only [List.cons.injEq, and_true]
    exact ⟨by omega, by omega, by omega⟩

/-! ## Helper lemmas: UTF-8 round trip and byte bounds -/

theorem charToNat_lt (c : Char) : c.toNat < 1114112 := by
  have h := c.valid
  simp [UInt32.isValidChar, Nat.isValidChar] at h
  simp [Char.toNat]
  rcases h with h | h <;> omega

theorem utf8DecodeStep_encodeChar (c : Char) (bs : List Nat) :
    utf8DecodeStep (utf8EncodeChar c ++ bs) = some (c, bs) := by
  have hofNat : Char.ofNat c.toNat = c := Char.ofNat_toNat c
  by_cases h1 : c.toNat < 0x80
  · rw [utf8EncodeChar, if_pos h1]
    simp only [List.cons_append, List.nil_append, utf8DecodeStep]
    rw [if_pos h1, hofNat]
  · by_cases h2 : c.toNat < 0x800
    · rw [utf8EncodeChar, if_neg h1, if_pos h2]
      simp only [List.cons_append, List.nil_append, utf8DecodeStep]
      rw [if_neg (by omega), if_pos (by omega), utf8Tail1]
      have harith : (0xC0 + c.toNat / 64 - 0xC0) * 64 + (0x80 + c.toNat % 64 - 0x80) =
          c.toNat := by omega
      rw [harith, hofNat]
    · by_cases h3 : c.toNat < 0x10000
      · rw [utf8EncodeChar, if_neg h1, if_neg h2, if_pos h3]
        simp only [List.cons_append, List.nil_append, utf8DecodeStep]
        rw [if_neg (by omega), if_neg (by omega), if_pos (by omega), utf8Tail2]
        have harith : (0xE0 + c.toNat / 4096 - 0xE0) * 4096 +
            (0x80 + c.toNat / 64 % 64 - 0x80) * 64 + (0x80 + c.toNat % 64 - 0x80) =
            c.toNat := by omega
        rw [harith, hofNat]
      · rw [utf8EncodeChar, if_neg h1, if_neg h2, if_neg h3]
        simp only [List.cons_append, List.nil_append, utf8DecodeStep]
        rw [if_neg (by omega), if_neg (by omega), if_neg (by omega), utf8Tail3]
        have harith : (0xF0 + c.toNat / 262144 - 0xF0) * 262144 +
            (0x80 + c.toNat / 4096 % 64 - 0x80) * 4096 +
            (0x80 + c.toNat / 64 % 64 - 0x80) * 64 + (0x80 + c.toNat % 64 - 0x80) =
            c.toNat := by omega
        rw [harith, hofNat]

theorem utf8EncodeChar_length_pos (c : Char) : 1 ≤ (utf8EncodeChar c).length := by
  rw [utf8EncodeChar]
  split
  · simp
  · split
    · simp
    · split <;> simp

theorem utf8DecodeLoop_encodeList (cs : List Char) : ∀ fuel : Nat,
    (utf8EncodeList cs).length ≤ fuel →
    utf8DecodeLoop fuel (utf8EncodeList cs) = some cs := by
  induction cs with
  | nil =>
    intro fuel _
    rw [utf8EncodeList]
    cases fuel <;> rfl
  | cons c cs ih =>
    intro fuel hfuel
    rw [utf8EncodeList] at hfuel ⊢
    have hlenc := utf8EncodeChar_length_pos c
    obtain ⟨e, es, henc⟩ : ∃ e es, utf8EncodeChar c = e :: es := by
      cases hc : utf8EncodeChar c with
      | nil => rw [hc] at hlenc; simp at hlenc
      | cons e es => exact ⟨e, es, rfl⟩
    rw [List.length_append] at hfuel
    obtain ⟨f, rfl⟩ : ∃ f, fuel = f + 1 := by
      rcases fuel with _ | f
      · rw [henc] at hfuel; simp at hfuel
      · exact ⟨f, rfl⟩
    rw [henc, List.cons_append, utf8DecodeLoop]
    rw [← List.cons_append, ← henc, utf8DecodeStep_encodeChar]
    show (utf8DecodeLoop f (utf8EncodeList cs)).map (fun cs => c :: cs) = some (c :: cs)
    rw [ih f (by rw [henc] at hfuel; simp at hfuel; omega)]
    rfl

theorem utf8DecodeList_encodeList (cs : List Char) :
    utf8DecodeList (utf8EncodeList cs) = some cs :=
  utf8DecodeLoop_encodeList cs (utf8EncodeList cs).length (Nat.le_refl _)

theorem utf8_roundtrip (s : String) : utf8Decode (utf8Encode s) = some s := by
  rw [utf8Decode, utf8Encode, utf8DecodeList_encodeList]
  rfl

theorem utf8EncodeChar_lt_256 (c : Char) : ∀ b ∈ utf8EncodeChar c, b < 256 := by
  have hc := charToNat_lt c
  intro b hb
  rw [utf8EncodeChar] at hb
  by_cases h1 : c.toNat < 0x80
  · rw [if_pos h1] at hb
    simp only [List.mem_cons, List.not_mem_nil, or_false] at hb
    omega
  · rw [if_neg h1] at hb
    by_cases h2 : c.toNat < 0x800
    · rw [if_pos h2] at hb
      simp only [List.mem_cons, List.not_mem_nil, or_false] at hb
      rcases hb with hb | hb <;> omega
    · rw [if_neg h2] at hb
      by_cases h3 : c.toNat < 0x10000
      · rw [if_pos h3] at hb
        simp only [List.mem_cons, List.not_mem_nil, or_false] at hb
        rcases hb with hb | hb | hb <;> omega
      · rw [if_neg h3] at hb
        simp only [List.mem_cons, List.not_mem_nil, or_false] at hb
        rcases hb with hb | hb | hb | hb <;> omega

theorem utf8EncodeList_lt_256 (cs : List Char) : ∀ b ∈ utf8EncodeList cs, b < 256 := by
  induction cs with
  | nil => intro b hb; simp [utf8EncodeList] at hb
  | cons c cs ih =>
    intro b hb
    rw [utf8EncodeList] at hb
    rcases List.mem_append.mp hb with hb | hb
    · exact utf8EncodeChar_lt_256 c b hb
    · exact ih b hb

/-! ## C1: session expiry boundary -/

/-- C1 (counterexample): the claim says the instant
`now = lastActivity + timeoutMinutes * 60000` is already expired (inclusive
upper bound), but `isSessionExpired` uses a strict comparison, so at exactly
`1000 + 5 * 60000 = 301000` it still reports `false`. -/
theorem claim_C1_counterexample :
    1000 + 5 * 60000 ≤ 301000 ∧ isSessionExpired 301000 stExpiry = false := by
  constructor
  · omega
  · rfl

/-- C1 (amended): `isSessionExpired` returns true exactly when
`now > lastActivity + timeoutMinutes * 60000` (exclusive bound): at the
instant of equality the session is still reported unexpired, and one
millisecond later it is reported expired. -/
theorem claim_C1_session_expiry_strict (la t now : Nat) (s : SecurityState)
    (hla : s.sessionStore.lastActivity = some la)
    (ht : s.localStore.lockTimeout = some t) (ht0 : t ≠ 0) :
    (isSessionExpired now s = true ↔ la + t * 60000 < now)
    ∧ isSessionExpired (la + t * 60000) s = false
    ∧ isSessionExpired (la + t * 60000 + 1) s = true := by
  have hT : getLockTimeout s = t := by
    rw [getLockTimeout, ht]
    show (if t = 0 then DEFAULT_LOCK_TIMEOUT_MINS else t) = t
    rw [if_neg ht0]
  refine ⟨?_, ?_, ?_⟩
  · rw [isSessionExpired, hla, hT]
    simp only [Option.getD_some, decide_eq_true_eq]
    omega
  · rw [isSessionExpired, hla, hT]
    simp only [Option.getD_some, decide_eq_false_iff_not]
    omega
  · rw [isSessionExpired, hla, hT]
    simp only [Option.getD_some, decide_eq_true_eq]
    omega

/-- C1 (witness): the amended theorem applied at `lastActivity = 1000`,
`timeout = 5` minutes, `now = 301001`. -/
theorem claim_C1_witness :
    (isSessionExpired 301001 stExpiry = true ↔ 1000 + 5 * 60000 < 301001)
    ∧ isSessionExpired (1000 + 5 * 60000) stExpiry = false
    ∧ isSessionExpired (1000 + 5 * 60000 + 1) stExpiry = true :=
  claim_C1_session_expiry_strict 1000 5 301001 stExpiry (by rfl) (by rfl) (by omega)

/-! ## C2: backoff gate rejects without hashing or mutation -/

/-- C2: while the backoff window is open (`count ≥ 1` and
`now < lastFailureTimestamp + min(2^count, 300) s`), `handlePinUnlock`
rejects the attempt reporting the remaining wait and returns the state
unchanged; the result does not depend on the hash function or the PIN, so
no hash comparison is consumed. -/
theorem claim_C2_backoff_rejection (hashPin : String → String) (pin : String)
    (now n : Nat) (s : SecurityState) (hn : readAttempts s = n) (h1 : 1 ≤ n)
    (hnow : now < readLastFailed s + Nat.min (2 ^ n) MAX_BACKOFF_SECONDS * 1000) :
    handlePinUnlock hashPin pin now s =
      (.backoffRejected
        (readLastFailed s + Nat.min (2 ^ n) MAX_BACKOFF_SECONDS * 1000 - now), s) := by
  subst hn
  have hb : isBackoffActive now s =
      ⟨true, readLastFailed s +
        Nat.min (2 ^ readAttempts s) MAX_BACKOFF_SECONDS * 1000 - now⟩ := by
    rw [isBackoffActive]
    simp only
    rw [if_neg (by omega), if_pos hnow]
  rw [handlePinUnlock]
  simp [hb]

/-- C2 (witness): with three failures recorded at `t = 10000` the window is
`8` seconds, so an attempt at `t = 12000` is rejected with `6000` ms left. -/
theorem claim_C2_witness :
    handlePinUnlock (fun p => p) "1234" 12000 stBackoff =
      (.backoffRejected
        (readLastFailed stBackoff + Nat.min (2 ^ 3) MAX_BACKOFF_SECONDS * 1000 - 12000),
        stBackoff) :=
  claim_C2_backoff_rejection (fun p => p) "1234" 12000 3 stBackoff (by decide)
    (by decide) (by decide)

/-! ## C5: backoff delay formula -/

/-- C5: with `n ≥ 1` recorded failures the delay is `min(2^n, 300)` seconds
in milliseconds and the backoff is active exactly while
`now < lastFailureTimestamp + delay`; with `n = 0` the delay is `0` and the
backoff is never active. -/
theorem claim_C5_backoff_formula (s : SecurityState) (now n : Nat)
    (hn : readAttempts s = n) :
    (1 ≤ n →
      getBackoffDelay s = Nat.min (2 ^ n) MAX_BACKOFF_SECONDS * 1000
      ∧ ((isBackoffActive now s).active = true ↔
          now < readLastFailed s + Nat.min (2 ^ n) MAX_BACKOFF_SECONDS * 1000))
    ∧ (n = 0 → getBackoffDelay s = 0 ∧ (isBackoffActive now s).active = false) := by
  subst hn
  constructor
  · intro h1
    constructor
    · rw [getBackoffDelay]
      rw [if_neg (by omega)]
    · rw [isBackoffActive]
      simp only
      rw [if_neg (by omega)]
      by_cases hnow : now < readLastFailed s +
          Nat.min (2 ^ readAttempts s) MAX_BACKOFF_SECONDS * 1000
      · rw [if_pos hnow]
        simpa using hnow
      · rw [if_neg hnow]
        simpa using hnow
  · intro h0
    constructor
    · rw [getBackoffDelay]
      rw [if_pos h0]
    · rw [isBackoffActive]
      simp only
      rw [if_pos h0]

/-! ## Case analysis of `verifyPin`, shared by several claims -/

theorem verifyPin_eq (hashPin : String → String) (pin : String) (now : Nat)
    (s : SecurityState) :
    verifyPin hashPin pin now s =
      if s.localStore.pinHash = some (hashPin pin) then
        (true, updateLastActivity now
          { s with localStore := { s.localStore with failedAttempts := some 0 } })
      else if MAX_FAILED_ATTEMPTS ≤ readAttempts s + 1 then
        (false, clearSecurityData
          { s with localStore := { s.localStore with
              failedAttempts := some (readAttempts s + 1), lastFailedTime := some now } })
      else
        (false, { s with localStore := { s.localStore with
            failedAttempts := some (readAttempts s + 1), lastFailedTime := some now } }) := by
  rw [verifyPin]

/-! ## C3: destructive wipe at the failure threshold -/

/-- C3 (counterexample): a fifth consecutive failure does wipe the PIN
record and the failed-attempt counter, but the claim also says
`lastFailureTimestamp` is wiped — it is not: `clearSecurityData` removes
only `PIN_KEY` and `FAILED_ATTEMPTS_KEY`, so the entry keeps the time of
the final failed attempt. -/
theorem claim_C3_counterexample :
    (verifyPin (fun p => p) "9999" 77 stFour).1 = false
    ∧ ((verifyPin (fun p => p) "9999" 77 stFour).2).localStore.pinHash = none
    ∧ ((verifyPin (fun p => p) "9999" 77 stFour).2).localStore.failedAttempts = none
    ∧ ((verifyPin (fun p => p) "9999" 77 stFour).2).localStore.lastFailedTime = some 77 := by
  refine ⟨by decide, by decide, by decide, by decide⟩

/-- C3 (amended): when a failed `verifyPin` brings the count to exactly
`MAX_FAILED_ATTEMPTS`, the PIN record and the failure count are wiped, the
session store is cleared, and `hasPin` subsequently returns false; the
`lastFailureTimestamp` entry, however, is not wiped — it remains set to the
time of the final failed attempt. -/
theorem claim_C3_wipe_on_max_failure (hashPin : String → String) (pin : String)
    (now : Nat) (s : SecurityState) (ph : String)
    (hph : s.localStore.pinHash = some ph) (hne : hashPin pin ≠ ph)
    (hcount : readAttempts s + 1 = MAX_FAILED_ATTEMPTS) :
    (verifyPin hashPin pin now s).1 = false
    ∧ (verifyPin hashPin pin now s).2.localStore.pinHash = none
    ∧ (verifyPin hashPin pin now s).2.localStore.failedAttempts = none
    ∧ hasPin (verifyPin hashPin pin now s).2 = false
    ∧ (verifyPin hashPin pin now s).2.localStore.lastFailedTime = some now
    ∧ (verifyPin hashPin pin now s).2.sessionStore.sessionKey = none
    ∧ (verifyPin hashPin pin now s).2.sessionStore.lastActivity = none := by
  have hc : ¬ s.localStore.pinHash = some (hashPin pin) := by
    rw [hph]
    simp only [Option.some.injEq]
    exact fun h => hne h.symm
  rw [verifyPin_eq, if_neg hc, if_pos (by omega)]
  simp [clearSecurityData, hasPin]

/-- C3 (witness): the amended theorem applied to the four-failure state with
a wrong PIN at time `77`. -/
theorem claim_C3_witness :
    (verifyPin (fun p => p) "9990" 77 stFour).1 = false
    ∧ (verifyPin (fun p => p) "9990" 77 stFour).2.localStore.pinHash = none
    ∧ (verifyPin (fun p => p) "9990" 77 stFour).2.localStore.failedAttempts = none
    ∧ hasPin (verifyPin (fun p => p) "9990" 77 stFour).2 = false
    ∧ (verifyPin (fun p => p) "9990" 77 stFour).2.localStore.lastFailedTime = some 77
    ∧ (verifyPin (fun p => p) "9990" 77 stFour).2.sessionStore.sessionKey = none
    ∧ (verifyPin (fun p => p) "9990" 77 stFour).2.sessionStore.lastActivity = none :=
  claim_C3_wipe_on_max_failure (fun p => p) "9990" 77 stFour "1234" (by rfl)
    (by decide) (by decide)

/-! ## C8: the counter resets only on success or security-data clear -/

/-- C8: a successful `verifyPin` always writes `0` to the failed-attempt
counter, and across every store-mutating operation the counter can go from
nonzero to zero only through a successful `verifyPin`, through
`clearSecurityData`, or through a failed `verifyPin` that reaches the
threshold and thereby invokes the destructive `clearSecurityData`. -/
theorem claim_C8_counter_reset_invariant (hashPin : String → String) (now : Nat)
    (s : SecurityState) :
    (∀ pin, (verifyPin hashPin pin now s).1 = true →
      readAttempts (verifyPin hashPin pin now s).2 = 0)
    ∧ (∀ op : SecOp, readAttempts (runOp hashPin now op s) = 0 →
        readAttempts s = 0 ∨ op = .clearSecurityDataOp ∨
        ∃ pin, op = .verifyPinOp pin ∧
          ((verifyPin hashPin pin now s).1 = true ∨
            MAX_FAILED_ATTEMPTS ≤ readAttempts s + 1)) := by
  constructor
  · intro pin hsucc
    by_cases hc : s.localStore.pinHash = some (hashPin pin)
    · rw [verifyPin_eq, if_pos hc]
      simp [readAttempts, updateLastActivity]
    · exfalso
      rw [verifyPin_eq, if_neg hc] at hsucc
      by_cases hm : MAX_FAILED_ATTEMPTS ≤ readAttempts s + 1
      · rw [if_pos hm] at hsucc
        simp at hsucc
      · rw [if_neg hm] at hsucc
        simp at hsucc
  · intro op h
    cases op with
    | setPinOp pin =>
      left
      simpa [runOp, setPin, readAttempts] using h
    | verifyPinOp pin =>
      by_cases hc : s.localStore.pinHash = some (hashPin pin)
      · exact Or.inr (Or.inr ⟨pin, rfl, Or.inl (by rw [verifyPin_eq, if_pos hc])⟩)
      · by_cases hm : MAX_FAILED_ATTEMPTS ≤ readAttempts s + 1
        · exact Or.inr (Or.inr ⟨pin, rfl, Or.inr hm⟩)
        · exfalso
          rw [runOp, verifyPin_eq, if_neg hc, if_neg hm] at h
          simp [readAttempts] at h
    | removePinOp =>
      left
      simpa [runOp, removePin, readAttempts] using h
    | setLockTimeoutOp m =>
      left
      simpa [runOp, setLockTimeout, readAttempts] using h
    | updateLastActivityOp =>
      left
      simpa [runOp, updateLastActivity, readAttempts] using h
    | clearSecurityDataOp =>
      exact Or.inr (Or.inl rfl)
    | storeKeyOp k =>
      left
      simpa [runOp, storeKeyInSession, readAttempts] using h
    | clearKeyOp =>
      left
      simpa [runOp, clearKeyFromSession, readAttempts] using h
    | secureLogoutOp =>
      left
      simpa [runOp, secureLogout, readAttempts] using h

/-- C8 (witness): a successful verification from three recorded failures
resets the counter to zero. -/
theorem claim_C8_witness :
    readAttempts (verifyPin (fun p => p) "aa" 50 stBackoff).2 = 0 :=
  (claim_C8_counter_reset_invariant (fun p => p) 50 stBackoff).1 "aa" (by decide)

/-! ## C9: failed attempts with no PIN configured -/

/-- C9: with no `PinRecord` stored every `verifyPin` call fails and records
the failure; once the count reaches the threshold the destructive clear
removes the failed-attempt entry and empties the volatile session store,
including the cached session key. -/
theorem claim_C9_no_pin_attempts (hashPin : String → String) (pin : String)
    (now : Nat) (s : SecurityState) (hnone : s.localStore.pinHash = none) :
    (verifyPin hashPin pin now s).1 = false
    ∧ (readAttempts s + 1 < MAX_FAILED_ATTEMPTS →
        (verifyPin hashPin pin now s).2.localStore.failedAttempts =
          some (readAttempts s + 1)
        ∧ (verifyPin hashPin pin now s).2.localStore.lastFailedTime = some now)
    ∧ (MAX_FAILED_ATTEMPTS ≤ readAttempts s + 1 →
        (verifyPin hashPin pin now s).2.localStore.failedAttempts = none
        ∧ (verifyPin hashPin pin now s).2.localStore.pinHash = none
        ∧ (verifyPin hashPin pin now s).2.sessionStore.sessionKey = none
        ∧ (verifyPin hashPin pin now s).2.sessionStore.lastActivity = none) := by
  have hc : ¬ s.localStore.pinHash = some (hashPin pin) := by
    rw [hnone]
    simp
  refine ⟨?_, ?_, ?_⟩
  · rw [verifyPin_eq, if_neg hc]
    by_cases hm : MAX_FAILED_ATTEMPTS ≤ readAttempts s + 1
    · rw [if_pos hm]
    · rw [if_neg hm]
  · intro hlt
    rw [verifyPin_eq, if_neg hc, if_neg (by omega)]
    exact ⟨rfl, rfl⟩
  · intro hge
    rw [verifyPin_eq, if_neg hc, if_pos hge]
    simp [clearSecurityData]

/-- C9 (witness): the theorem applied to the no-PIN state with four prior
failures, where the fifth attempt triggers the wipe. -/
theorem claim_C9_witness :
    (verifyPin (fun p => p) "1111" 90 stNoPin).1 = false
    ∧ ((verifyPin (fun p => p) "1111" 90 stNoPin).2.localStore.failedAttempts = none
      ∧ (verifyPin (fun p => p) "1111" 90 stNoPin).2.localStore.pinHash = none
      ∧ (verifyPin (fun p => p) "1111" 90 stNoPin).2.sessionStore.sessionKey = none
      ∧ (verifyPin (fun p => p) "1111" 90 stNoPin).2.sessionStore.lastActivity = none) :=
  ⟨(claim_C9_no_pin_attempts (fun p => p) "1111" 90 stNoPin (by rfl)).1,
    (claim_C9_no_pin_attempts (fun p => p) "1111" 90 stNoPin (by rfl)).2.2 (by decide)⟩

/-- C5 (witness): the formula applied to the three-failure state. -/
theorem claim_C5_witness :
    getBackoffDelay stBackoff = Nat.min (2 ^ 3) MAX_BACKOFF_SECONDS * 1000
    ∧ ((isBackoffActive 12000 stBackoff).active = true ↔
        12000 < readLastFailed stBackoff + Nat.min (2 ^ 3) MAX_BACKOFF_SECONDS * 1000) :=
  (claim_C5_backoff_formula stBackoff 12000 3 (by decide)).1 (by decide)

/-! ## C4: the three domain-match scenarios -/

set_option maxRecDepth 8000 in
/-- C4 (counterexample): the claim puts the hostnames `bank-secure.com` and
`bank.com` at edit distance at most 2 with a phishing warning, but their
Levenshtein distance is 7 (deleting `-secure`), so `checkDomainMatch`
returns the plain mismatch warning instead. -/
theorem claim_C4_counterexample :
    ¬ levenshteinDistance (extractDomain "https://bank-secure.com")
        (extractDomain "https://bank.com") ≤ 2
    ∧ checkDomainMatch "https://bank-secure.com" "https://bank.com" =
        ⟨false, some "Domain mismatch"⟩ := by
  refine ⟨by decide, by decide⟩

set_option maxRecDepth 8000 in
/-- C4 (amended): `matchDomain("https://bank.com/login","https://bank.com")`
matches with no warning; `matchDomain("https://bank-secure.com","https://bank.com")`
has hostname edit distance 7 (not at most 2) and returns the plain
`Domain mismatch` warning rather than a phishing warning; and
`matchDomain("https://totallydifferent.org","https://bank.com")` returns the
same plain mismatch warning, which contains no phishing language. -/
theorem claim_C4_domain_scenarios :
    checkDomainMatch "https://bank.com/login" "https://bank.com" = ⟨true, none⟩
    ∧ levenshteinDistance "bank-secure.com" "bank.com" = 7
    ∧ checkDomainMatch "https://bank-secure.com" "https://bank.com" =
        ⟨false, some "Domain mismatch"⟩
    ∧ checkDomainMatch "https://totallydifferent.org" "https://bank.com" =
        ⟨false, some "Domain mismatch"⟩ := by
  refine ⟨by decide, by decide, by decide, by decide⟩

/-! ## C6: general behaviour of `checkDomainMatch` -/

/-- C6: for every pair of URLs, `checkDomainMatch` reports `Invalid URL`
when either hostname fails to parse, a warning-free match on exact hostname
equality, a phishing warning naming both hostnames when their Levenshtein
distance lies in `(0, 2]`, and a plain mismatch warning for any other
distance. -/
theorem claim_C6_checkDomainMatch_cases (currentUrl storedUrl : String) :
    (extractDomain currentUrl = "" ∨ extractDomain storedUrl = "" →
      checkDomainMatch currentUrl storedUrl = ⟨false, some "Invalid URL"⟩)
    ∧ (extractDomain currentUrl ≠ "" → extractDomain storedUrl ≠ "" →
        extractDomain currentUrl = extractDomain storedUrl →
        checkDomainMatch currentUrl storedUrl = ⟨true, none⟩)
    ∧ (extractDomain currentUrl ≠ "" → extractDomain storedUrl ≠ "" →
        extractDomain currentUrl ≠ extractDomain storedUrl →
        0 < levenshteinDistance (extractDomain currentUrl) (extractDomain storedUrl) →
        levenshteinDistance (extractDomain currentUrl) (extractDomain storedUrl) ≤ 2 →
        checkDomainMatch currentUrl storedUrl =
          ⟨false, some (phishingWarning (extractDomain currentUrl)
            (extractDomain storedUrl))⟩
        ∧ ∃ pre mid post,
            phishingWarning (extractDomain currentUrl) (extractDomain storedUrl) =
              pre ++ extractDomain currentUrl ++ mid ++ extractDomain storedUrl ++ post)
    ∧ (extractDomain currentUrl ≠ "" → extractDomain storedUrl ≠ "" →
        extractDomain currentUrl ≠ extractDomain storedUrl →
        ¬(0 < levenshteinDistance (extractDomain currentUrl) (extractDomain storedUrl)
          ∧ levenshteinDistance (extractDomain currentUrl) (extractDomain storedUrl) ≤ 2) →
        checkDomainMatch currentUrl storedUrl = ⟨false, some "Domain mismatch"⟩) := by
  refine ⟨?_, ?_, ?_, ?_⟩
  · intro h
    rcases h with h | h <;> simp [checkDomainMatch, h]
  · intro h1 h2 heq
    simp [checkDomainMatch, h1, h2, heq]
  · intro h1 h2 hne hgt hle
    constructor
    · simp [checkDomainMatch, h1, h2, hne, hgt, hle]
    · exact ⟨"⚠️ Possible phishing! Domain \"", "\" looks similar to stored \"", "\"",
        by rw [phishingWarning]⟩
  · intro h1 h2 hne hn
    by_cases hd2 : levenshteinDistance (extractDomain currentUrl)
        (extractDomain storedUrl) ≤ 2
    · have hd0 : ¬ 0 < levenshteinDistance (extractDomain currentUrl)
          (extractDomain storedUrl) := fun h0 => hn ⟨h0, hd2⟩
      simp [checkDomainMatch, h1, h2, hne, hd2, hd0]
    · simp [checkDomainMatch, h1, h2, hne, hd2]

/-- C6 (witness): the phishing branch applied to `banc.com` against
`bank.com`, whose hostnames are at distance 1. -/
theorem claim_C6_witness :
    checkDomainMatch "https://banc.com" "https://bank.com" =
      ⟨false, some (phishingWarning (extractDomain "https://banc.com")
        (extractDomain "https://bank.com"))⟩
    ∧ ∃ pre mid post,
        phishingWarning (extractDomain "https://banc.com")
            (extractDomain "https://bank.com") =
          pre ++ extractDomain "https://banc.com" ++ mid ++
            extractDomain "https://bank.com" ++ post :=
  (claim_C6_checkDomainMatch_cases "https://banc.com" "https://bank.com").2.2.1
    (by decide) (by decide) (by decide) (by decide) (by decide)

/-! ## C10: base64 round trip -/

/-- C10: decoding after encoding is the identity on byte arrays, for the
pair `arrayBufferToBase64` / `base64ToArrayBuffer` used for ciphertexts,
nonces and salts. -/
theorem claim_C10_base64_roundtrip (bs : List Nat) (h : ∀ b ∈ bs, b < 256) :
    base64ToArrayBuffer (arrayBufferToBase64 bs) = bs := by
  rw [arrayBufferToBase64, base64ToArrayBuffer]
  exact b64_roundtrip bs h

/-- C10 (witness): the round trip on a sample byte array spanning the byte
range. -/
theorem claim_C10_witness :
    base64ToArrayBuffer (arrayBufferToBase64 bytes0) = bytes0 :=
  claim_C10_base64_roundtrip bytes0 (by decide)

/-! ## C7: authenticated encryption round trip -/

theorem subtleEncrypt_bytes_lt (key iv : List Nat) (pt : String)
    (hkb : ∀ b ∈ key, b < 256) (hivb : ∀ b ∈ iv, b < 256) :
    ∀ b ∈ subtleEncrypt key iv pt, b < 256 := by
  intro b hb
  rw [subtleEncrypt] at hb
  rcases List.mem_append.mp hb with hb | hb
  · rcases List.mem_append.mp hb with hb | hb
    · exact hkb b hb
    · exact hivb b hb
  · exact utf8EncodeList_lt_256 pt.data b hb

theorem subtleEncrypt_drop (key iv : List Nat) (pt : String)
    (hklen : key.length = 32) (hivlen : iv.length = 12) :
    (subtleEncrypt key iv pt).drop 44 = utf8Encode pt := by
  rw [subtleEncrypt]
  rw [show (44 : Nat) = (key ++ iv).length by simp [hklen, hivlen]]
  exact List.drop_left _ _

/-- C7: under the ideal AES-GCM model, `decryptData` applied to the output
of `encryptData` with the same key and nonce returns the plaintext; a
different (same-length) key fails with the typed decryption error, as does a
different nonce; and whenever `decryptData` succeeds on any ciphertext the
returned plaintext is exactly the one whose genuine encryption (under that
key and nonce) the ciphertext bytes are — corrupted plaintext is never
returned. -/
theorem claim_C7_cipher_roundtrip (key iv : List Nat) (pt : String)
    (hklen : key.length = 32) (hivlen : iv.length = 12)
    (hkb : ∀ b ∈ key, b < 256) (hivb : ∀ b ∈ iv, b < 256) :
    decryptData key (encryptData key iv pt).encrypted (encryptData key iv pt).iv =
      .ok pt
    ∧ (∀ key2 : List Nat, key2.length = 32 → key2 ≠ key →
        decryptData key2 (encryptData key iv pt).encrypted
          (encryptData key iv pt).iv = .error .authFailure)
    ∧ (∀ iv2 : List Nat, iv2.length = 12 → (∀ b ∈ iv2, b < 256) → iv2 ≠ iv →
        decryptData key (encryptData key iv pt).encrypted
          (arrayBufferToBase64 iv2) = .error .authFailure)
    ∧ (∀ ct2 : List Nat, ∀ p : String, (∀ b ∈ ct2, b < 256) →
        decryptData key (arrayBufferToBase64 ct2) (encryptData key iv pt).iv =
          .ok p →
        ct2 = subtleEncrypt key iv p) := by
  have hctb := subtleEncrypt_bytes_lt key iv pt hkb hivb
  have henc : base64ToArrayBuffer (encryptData key iv pt).encrypted =
      subtleEncrypt key iv pt := by
    rw [encryptData, base64ToArrayBuffer, arrayBufferToBase64]
    exact b64_roundtrip _ hctb
  have hivdec : base64ToArrayBuffer (encryptData key iv pt).iv = iv := by
    rw [encryptData, base64ToArrayBuffer, arrayBufferToBase64]
    exact b64_roundtrip _ hivb
  have hdec : ∀ key2 : List Nat, key2.length = 32 →
      subtleDecrypt key2 (subtleEncrypt key iv pt) iv =
        if subtleEncrypt key iv pt = subtleEncrypt key2 iv pt then .ok pt
        else .error .authFailure := by
    intro key2 hk2
    rw [subtleDecrypt]
    rw [show key2.length + iv.length = 44 by omega]
    rw [subtleEncrypt_drop key iv pt hklen hivlen, utf8_roundtrip]
  refine ⟨?_, ?_, ?_, ?_⟩
  · rw [decryptData, henc, hivdec, hdec key hklen, if_pos rfl]
  · intro key2 hk2 hne
    rw [decryptData, henc, hivdec, hdec key2 hk2]
    rw [if_neg ?_]
    intro hcontra
    rw [subtleEncrypt, subtleEncrypt] at hcontra
    have h1 := List.append_cancel_right hcontra
    exact hne (List.append_cancel_right h1).symm
  · intro iv2 hiv2len hiv2b hne
    have hiv2dec : base64ToArrayBuffer (arrayBufferToBase64 iv2) = iv2 := by
      rw [base64ToArrayBuffer, arrayBufferToBase64]
      exact b64_roundtrip _ hiv2b
    rw [decryptData, henc, hiv2dec]
    rw [subtleDecrypt]
    rw [show key.length + iv2.length = 44 by omega]
    rw [subtleEncrypt_drop key iv pt hklen hivlen, utf8_roundtrip]
    show (if subtleEncrypt key iv pt = subtleEncrypt key iv2 pt then Except.ok pt
      else Except.error DecryptionError.authFailure) = Except.error DecryptionError.authFailure
    rw [if_neg ?_]
    intro hcontra
    rw [subtleEncrypt, subtleEncrypt] at hcontra
    have h1 := List.append_cancel_right hcontra
    exact hne (List.append_cancel_left h1).symm
  · intro ct2 p hb hok
    have hct2 : base64ToArrayBuffer (arrayBufferToBase64 ct2) = ct2 := by
      rw [base64ToArrayBuffer, arrayBufferToBase64]
      exact b64_roundtrip _ hb
    rw [decryptData, hct2, hivdec, subtleDecrypt] at hok
    rcases hq : utf8Decode (ct2.drop (key.length + iv.length)) with _ | q
    · rw [hq] at hok
      simp at hok
    · rw [hq] at hok
      have hok2 : (if ct2 = subtleEncrypt key iv q then Except.ok q
          else Except.error DecryptionError.authFailure) =
            (Except.ok p : Except DecryptionError String) := hok
      by_cases hc : ct2 = subtleEncrypt key iv q
      · rw [if_pos hc] at hok2
        simp only [Except.ok.injEq] at hok2
        rw [← hok2]
        exact hc
      · rw [if_neg hc] at hok2
        simp at hok2

/-- C7 (witness): the round trip on a concrete 32-byte key, 12-byte IV and
the plaintext `hi`. -/
theorem claim_C7_witness :
    decryptData key0 (encryptData key0 iv0 "hi").encrypted
      (encryptData key0 iv0 "hi").iv = .ok "hi" :=
  (claim_C7_cipher_roundtrip key0 iv0 "hi" (by decide) (by decide)
    (by decide) (by decide)).1

end CipherVault
